import Mathlib

/-
Verification of the llmhub fan-out/fan-in orchestrator (main.go).

The Go program dispatches one prompt to every enabled provider concurrently,
collects per-provider outcomes into a results map and an errors map, and feeds
the successful answers to one chosen summarizer provider for a final verdict.

Shallow embedding conventions:
  - Go maps keyed by string become association lists with overwrite-on-insert
    semantics (mapInsert); key sets and lookups are defined below.
  - A provider is its interface: a name, an enabled flag, stored credential
    material, and a per-run deterministic query behaviour
    String to Except String String (Go error values become strings).
  - Goroutine completion order is an arbitrary permutation of the launch
    order; the fold fanOutFrom models the mutex-serialised map writes, and
    order independence of the key sets is proved as a theorem.
-/

set_option maxHeartbeats 1000000

/-- Go interface Provider (main.go lines 17 to 21): Name, Enabled, Query.
The query field models one run of Query for the fixed run context:
deterministic per prompt, returning either an answer or an error. -/
structure Provider where
  name : String
  enabled : Bool
  apiKey : String
  query : String → Except String String

/-- Go map assignment m[k] = v on a string-keyed map: overwrite the existing
entry for k or append a new one. -/
def mapInsert {α : Type} (m : List (String × α)) (k : String) (v : α) :
    List (String × α) :=
  match m with
  | [] => [(k, v)]
  | (k1, v1) :: rest =>
    if k1 = k then (k, v) :: rest else (k1, v1) :: mapInsert rest k v

/-- The key set of a Go map, as the list of keys of the association list. -/
def mapKeys {α : Type} (m : List (String × α)) : List String :=
  m.map Prod.fst

/-- Go map read m[k] with presence information. -/
def mapLookup {α : Type} (m : List (String × α)) (k : String) : Option α :=
  match m with
  | [] => none
  | (k1, v1) :: rest => if k1 = k then some v1 else mapLookup rest k

/-- Go map read m[k] returning the zero value d when the key is absent. -/
def mapGetD {α : Type} (m : List (String × α)) (k : String) (d : α) : α :=
  match mapLookup m k with
  | some v => v
  | none => d

/-- One goroutine body of queryProviders completing (main.go lines 94 to 106):
call prov.Query(ctx, prompt, nil) once, then under the mutex record the answer
in the results map or the error in the errors map. -/
def recordOutcome (prompt : String)
    (acc : List (String × String) × List (String × String)) (p : Provider) :
    List (String × String) × List (String × String) :=
  match p.query prompt with
  | Except.ok answer => (mapInsert acc.1 p.name answer, acc.2)
  | Except.error e => (acc.1, mapInsert acc.2 p.name e)

/-- Fan-out accumulation: the mutex serialises the map writes, so the final
map contents are a fold of recordOutcome over the goroutine completion order,
starting from the two empty maps made at main.go lines 89 to 90. -/
def fanOutFrom (prompt : String)
    (acc : List (String × String) × List (String × String))
    (completed : List Provider) :
    List (String × String) × List (String × String) :=
  completed.foldl (recordOutcome prompt) acc

/-- Go queryProviders (main.go lines 86 to 110): one goroutine per provider,
each queried once with the shared prompt; wg.Wait joins them all before the
two maps are returned. The canonical completion order taken here is the launch
order; invariance of the key sets under reordering is proved separately. -/
def queryProviders (providers : List Provider) (prompt : String) :
    List (String × String) × List (String × String) :=
  fanOutFrom prompt ([], []) providers

/-- The Query invocations issued by one call to queryProviders: the loop at
main.go lines 92 to 107 launches exactly one goroutine per provider and each
goroutine calls prov.Query exactly once with the shared prompt. Each event
records the provider name, the prompt passed, and the outcome. -/
def fanOutTrace (providers : List Provider) (prompt : String) :
    List (String × String × Except String String) :=
  providers.map (fun p => (p.name, prompt, p.query prompt))

/-- Go findSummarizerProvider (main.go lines 112 to 119): first provider in
the list whose Name equals the requested name and which is Enabled, else nil. -/
def findSummarizerProvider (providers : List Provider) (name : String) :
    Option Provider :=
  match providers with
  | [] => none
  | p :: rest =>
    if p.name = name ∧ p.enabled = true then some p
    else findSummarizerProvider rest name

/-- The fixed first line of the synthesized summarizer prompt (main.go line 122). -/
def summaryHeader : String := "Summarize and provide a verdict for these answers:\n"

/-- The line rendered for one successful answer,
fmt.Sprintf of the name and answer (main.go line 124). -/
def entryLine (na : String × String) : String :=
  "[" ++ na.1 ++ "]: " ++ na.2 ++ "\n"

/-- The synthesized prompt built by summarizeAnswers (main.go lines 122 to 125):
the header followed by one rendered line per successful answer, in map
iteration order, modelled as the list order of the results mapping. -/
def summaryPrompt (answers : List (String × String)) : String :=
  answers.foldl (fun acc na => acc ++ entryLine na) summaryHeader

/-- Go summarizeAnswers (main.go lines 121 to 128): build the synthesized
prompt from the answers map and submit it as a single Query call to the
chosen provider. -/
def summarizeAnswers (provider : Provider) (answers : List (String × String)) :
    Except String String :=
  provider.query (summaryPrompt answers)

/-- The terminal outcome of one run of main. -/
inductive RunOutcome where
  | fatalEmptyPrompt
  | fatalConfigLoad
  | fatalEnvLoad
  | fatalNoProviders
  | fatalNoAnswers
  | fatalSummarizerNotFound
  | fatalSummarizerFailed (e : String)
  | done (verdict : String)
deriving DecidableEq

/-- Orchestration from the point the enabled provider list exists
(main.go lines 173 to 198): empty-set check, fan-out, zero-successes check,
summarizer lookup, summarization, verdict. The second component logs every
Query invocation as a pair of provider name and prompt passed. -/
def orchestrate (providers : List Provider) (summarizerName promptStr : String) :
    RunOutcome × List (String × String) :=
  if providers.length = 0 then (RunOutcome.fatalNoProviders, []) else
  let res := (queryProviders providers promptStr).1
  let log := providers.map (fun p => (p.name, promptStr))
  if res.length = 0 then (RunOutcome.fatalNoAnswers, log) else
  match findSummarizerProvider providers summarizerName with
  | none => (RunOutcome.fatalSummarizerNotFound, log)
  | some sp =>
    match summarizeAnswers sp res with
    | Except.error e =>
      (RunOutcome.fatalSummarizerFailed e, log ++ [(sp.name, summaryPrompt res)])
    | Except.ok v =>
      (RunOutcome.done v, log ++ [(sp.name, summaryPrompt res)])

/-- Go Config (main.go lines 35 to 38): enabled flags per provider name plus
the debug flag; the Go map becomes an association list. -/
structure Config where
  enabledProviders : List (String × Bool)
  debug : Bool

/-- Go os.Getenv: the value of the variable, or the empty string when unset. -/
def osGetenv (env : List (String × String)) (k : String) : String :=
  mapGetD env k ("")

/-- Go strings.ToUpper: uppercase every character, modelled on the character
data of the string. -/
def toUpperStr (s : String) : String :=
  String.mk (s.data.map Char.toUpper)

/-- Go loadAPIKeys (main.go lines 54 to 62): for each provider name, read the
environment variable UPPERCASE(name) ++ "_API_KEY"; an unset variable yields
the empty string, never an error. -/
def loadAPIKeys (env : List (String × String)) (providerNames : List String) :
    List (String × String) :=
  providerNames.foldl
    (fun acc name => mapInsert acc name (osGetenv env (toUpperStr name ++ "_API_KEY"))) []

/-- The OpenAI provider stub (main.go lines 23 to 33): fixed name, enabled per
config flag, stores the credential, and its Query always succeeds with a fixed
prefix of the prompt. -/
def mkOpenAIProvider (enabled : Bool) (apiKey : String) : Provider :=
  { name := "openai", enabled := enabled, apiKey := apiKey,
    query := fun p => Except.ok ("OpenAI answer to: " ++ p) }

/-- Go getEnabledProviders (main.go lines 72 to 84): construct every known
provider from the config flags and credentials, then filter to the enabled
subset. -/
def getEnabledProviders (cfg : Config) (apiKeys : List (String × String)) :
    List Provider :=
  let allProviders : List Provider :=
    [mkOpenAIProvider (mapGetD cfg.enabledProviders ("openai") false)
      (mapGetD apiKeys ("openai") "")]
  allProviders.filter (fun p => p.enabled)

/-- Go main after flag parsing (main.go lines 138 to 198): empty-prompt check,
config load, env file load, API key load, registry, then orchestration.
Collaborator results enter as Except values; the process environment enters as
an association list. -/
def runMain (promptFlag summarizerFlag : String) (configLoad : Except String Config)
    (envFileLoad : Except String Unit) (env : List (String × String)) :
    RunOutcome × List (String × String) :=
  if promptFlag = "" then (RunOutcome.fatalEmptyPrompt, []) else
  match configLoad with
  | Except.error _ => (RunOutcome.fatalConfigLoad, [])
  | Except.ok cfg =>
    match envFileLoad with
    | Except.error _ => (RunOutcome.fatalEnvLoad, [])
    | Except.ok _ =>
      let providerNames := cfg.enabledProviders.map Prod.fst
      let apiKeys := loadAPIKeys env providerNames
      orchestrate (getEnabledProviders cfg apiKeys) summarizerFlag promptFlag

/-- The string small occurs contiguously inside big. -/
def strContains (big small : String) : Prop :=
  ∃ x y, big.data = x ++ small.data ++ y

/-- The character data of the rendered entry lines, one per answer, in order. -/
def linesData (answers : List (String × String)) : List Char :=
  match answers with
  | [] => []
  | na :: rest => (entryLine na).data ++ linesData rest

/-- The rendered entry lines of the synthesized prompt as one string. -/
def linesStr (answers : List (String × String)) : String :=
  String.mk (linesData answers)

/-- A concrete always-succeeding provider used to evaluate the theorems. -/
def provAlpha : Provider :=
  { name := "alpha", enabled := true, apiKey := "key-a",
    query := fun p => Except.ok ("alpha says " ++ p) }

/-- A concrete always-failing provider used to evaluate the theorems. -/
def provBeta : Provider :=
  { name := "beta", enabled := true, apiKey := "key-b",
    query := fun _ => Except.error ("timeout") }

/-- A concrete disabled provider used to evaluate the theorems. -/
def provDelta : Provider :=
  { name := "delta", enabled := false, apiKey := "key-d",
    query := fun p => Except.ok ("delta says " ++ p) }

/-- A concrete provider with a fixed answer, used in the run where the user
prompt coincides with the synthesized prompt. -/
def provEcho : Provider :=
  { name := "alpha", enabled := true, apiKey := "key-e",
    query := fun _ => Except.ok ("x") }

theorem mem_mapKeys_mapInsert {α : Type} (m : List (String × α)) (k : String)
    (v : α) (k1 : String) :
    k1 ∈ mapKeys (mapInsert m k v) ↔ k1 = k ∨ k1 ∈ mapKeys m := by
  induction m with
  | nil => simp [mapInsert, mapKeys]
  | cons hd tl ih =>
    obtain ⟨hk, hv⟩ := hd
    by_cases h : hk = k
    · subst h
      simp [mapInsert, mapKeys]
    · simp only [mapInsert, if_neg h, mapKeys, List.map_cons, List.mem_cons]
      simp only [mapKeys] at ih
      rw [ih]
      tauto

theorem length_mapInsert_mem {α : Type} (m : List (String × α)) (k : String)
    (v : α) (h : k ∈ mapKeys m) :
    (mapInsert m k v).length = m.length := by
  induction m with
  | nil => simp [mapKeys] at h
  | cons hd tl ih =>
    obtain ⟨hk, hv⟩ := hd
    by_cases hh : hk = k
    · subst hh
      simp [mapInsert]
    · simp only [mapKeys, List.map_cons, List.mem_cons] at h
      rcases h with h | h

      · exact absurd h.symm hh
      · simp only [mapInsert, if_neg hh, List.length_cons]
        rw [ih h]

theorem length_mapInsert_new {α : Type} (m : List (String × α)) (k : String)
    (v : α) (h : k ∉ mapKeys m) :
    (mapInsert m k v).length = m.length + 1 := by
  induction m with
  | nil => simp [mapInsert]
  | cons hd tl ih =>
    obtain ⟨hk, hv⟩ := hd
    simp only [mapKeys, List.map_cons, List.mem_cons, not_or] at h
    obtain ⟨h1, h2⟩ := h
    have hh : hk ≠ k := fun e => h1 e.symm
    simp only [mapInsert, if_neg hh, List.length_cons]
    rw [ih h2]

theorem mapLookup_mapInsert_self {α : Type} (m : List (String × α)) (k : String)
    (v : α) :
    mapLookup (mapInsert m k v) k = some v := by
  induction m with
  | nil => simp [mapInsert, mapLookup]
  | cons hd tl ih =>
    obtain ⟨hk, hv⟩ := hd
    by_cases h : hk = k
    · subst h
      simp [mapInsert, mapLookup]
    · simp [mapInsert, if_neg h, mapLookup, ih]

theorem mapLookup_mapInsert_other {α : Type} (m : List (String × α)) (k : String)
    (v : α) (k1 : String) (h : k1 ≠ k) :
    mapLookup (mapInsert m k v) k1 = mapLookup m k1 := by
  have hne : ¬ (k = k1) := by
    intro e
    exact h e.symm
  induction m with
  | nil => simp [mapInsert, mapLookup, hne]
  | cons hd tl ih =>
    obtain ⟨hk, hv⟩ := hd
    by_cases hh : hk = k
    · subst hh
      simp [mapInsert, mapLookup, hne]
    · by_cases h2 : hk = k1
      · subst h2
        simp [mapInsert, if_neg hh, mapLookup]
      · simp [mapInsert, if_neg hh, mapLookup, h2, ih]

theorem fanOutFrom_cons (prompt : String)
    (acc : List (String × String) × List (String × String)) (q : Provider)
    (rest : List Provider) :
    fanOutFrom prompt acc (q :: rest) =
      fanOutFrom prompt (recordOutcome prompt acc q) rest := rfl

theorem mem_mapKeys_fanOutFrom_results (prompt : String) (l : List Provider) :
    ∀ acc k, k ∈ mapKeys (fanOutFrom prompt acc l).1 ↔
      k ∈ mapKeys acc.1 ∨ ∃ p, p ∈ l ∧ p.name = k ∧ (p.query prompt).isOk = true := by
  induction l with
  | nil =>
    intro acc k
    simp [fanOutFrom]
  | cons q rest ih =>
    intro acc k
    rw [fanOutFrom_cons, ih]
    cases hq : q.query prompt with
    | ok ans =>
      simp only [recordOutcome, hq, mem_mapKeys_mapInsert, List.mem_cons]
      constructor
      · rintro ((h | h) | ⟨p, hp, hn, hk⟩)
        · exact Or.inr ⟨q, Or.inl rfl, h.symm, by simp [hq, Except.isOk, Except.toBool]⟩
        · exact Or.inl h
        · exact Or.inr ⟨p, Or.inr hp, hn, hk⟩
      · rintro (h | ⟨p, (rfl | hp), hn, hk⟩)
        · exact Or.inl (Or.inr h)
        · exact Or.inl (Or.inl hn.symm)
        · exact Or.inr ⟨p, hp, hn, hk⟩
    | error e =>
      simp only [recordOutcome, hq, List.mem_cons]
      constructor
      · rintro (h | ⟨p, hp, hn, hk⟩)
        · exact Or.inl h
        · exact Or.inr ⟨p, Or.inr hp, hn, hk⟩
      · rintro (h | ⟨p, (rfl | hp), hn, hk⟩)
        · exact Or.inl h
        · rw [hq] at hk
          simp [Except.isOk, Except.toBool] at hk
        · exact Or.inr ⟨p, hp, hn, hk⟩

theorem mem_mapKeys_fanOutFrom_errors (prompt : String) (l : List Provider) :
    ∀ acc k, k ∈ mapKeys (fanOutFrom prompt acc l).2 ↔
      k ∈ mapKeys acc.2 ∨ ∃ p, p ∈ l ∧ p.name = k ∧ (p.query prompt).isOk = false := by
  induction l with
  | nil =>
    intro acc k
    simp [fanOutFrom]
  | cons q rest ih =>
    intro acc k
    rw [fanOutFrom_cons, ih]
    cases hq : q.query prompt with
    | error e =>
      simp only [recordOutcome, hq, mem_mapKeys_mapInsert, List.mem_cons]
      constructor
      · rintro ((h | h) | ⟨p, hp, hn, hk⟩)
        · exact Or.inr ⟨q, Or.inl rfl, h.symm, by simp [hq, Except.isOk, Except.toBool]⟩
        · exact Or.inl h
        · exact Or.inr ⟨p, Or.inr hp, hn, hk⟩
      · rintro (h | ⟨p, (rfl | hp), hn, hk⟩)
        · exact Or.inl (Or.inr h)
        · exact Or.inl (Or.inl hn.symm)
        · exact Or.inr ⟨p, hp, hn, hk⟩
    | ok ans =>
      simp only [recordOutcome, hq, List.mem_cons]
      constructor
      · rintro (h | ⟨p, hp, hn, hk⟩)
        · exact Or.inl h
        · exact Or.inr ⟨p, Or.inr hp, hn, hk⟩
      · rintro (h | ⟨p, (rfl | hp), hn, hk⟩)
        · exact Or.inl h
        · rw [hq] at hk
          simp [Except.isOk, Except.toBool] at hk
        · exact Or.inr ⟨p, hp, hn, hk⟩

theorem fanOutFrom_lookup_results_untouched (prompt : String) (l : List Provider) :
    ∀ acc k, k ∉ l.map Provider.name →
      mapLookup (fanOutFrom prompt acc l).1 k = mapLookup acc.1 k := by
  induction l with
  | nil =>
    intro acc k _
    rfl
  | cons q rest ih =>
    intro acc k hk
    simp only [List.map_cons, List.mem_cons, not_or] at hk
    rw [fanOutFrom_cons, ih _ _ hk.2]
    cases hq : q.query prompt with
    | ok ans =>
      simp only [recordOutcome, hq]
      exact mapLookup_mapInsert_other _ _ _ _ hk.1
    | error e =>
      simp [recordOutcome, hq]

theorem fanOutFrom_lookup_errors_untouched (prompt : String) (l : List Provider) :
    ∀ acc k, k ∉ l.map Provider.name →
      mapLookup (fanOutFrom prompt acc l).2 k = mapLookup acc.2 k := by
  induction l with
  | nil =>
    intro acc k _
    rfl
  | cons q rest ih =>
    intro acc k hk
    simp only [List.map_cons, List.mem_cons, not_or] at hk
    rw [fanOutFrom_cons, ih _ _ hk.2]
    cases hq : q.query prompt with
    | ok ans =>
      simp [recordOutcome, hq]
    | error e =>
      simp only [recordOutcome, hq]
      exact mapLookup_mapInsert_other _ _ _ _ hk.1

theorem fanOutFrom_lookup_spec (prompt : String) (l : List Provider) :
    ∀ acc p, p ∈ l → (l.map Provider.name).Nodup →
      ((∀ a, p.query prompt = Except.ok a →
          mapLookup (fanOutFrom prompt acc l).1 p.name = some a ∧
          mapLookup (fanOutFrom prompt acc l).2 p.name = mapLookup acc.2 p.name) ∧
       (∀ e, p.query prompt = Except.error e →
          mapLookup (fanOutFrom prompt acc l).2 p.name = some e ∧
          mapLookup (fanOutFrom prompt acc l).1 p.name = mapLookup acc.1 p.name)) := by
  induction l with
  | nil =>
    intro acc p hp
    exact absurd hp (List.not_mem_nil p)
  | cons q rest ih =>
    intro acc p hp hnd
    simp only [List.map_cons, List.nodup_cons] at hnd
    obtain ⟨hqn, hndr⟩ := hnd
    rcases List.mem_cons.mp hp with rfl | hpr
    · constructor
      · intro a ha
        rw [fanOutFrom_cons,
          fanOutFrom_lookup_results_untouched prompt rest _ _ hqn,
          fanOutFrom_lookup_errors_untouched prompt rest _ _ hqn]
        simp [recordOutcome, ha, mapLookup_mapInsert_self]
      · intro e he
        rw [fanOutFrom_cons,
          fanOutFrom_lookup_results_untouched prompt rest _ _ hqn,
          fanOutFrom_lookup_errors_untouched prompt rest _ _ hqn]
        simp [recordOutcome, he, mapLookup_mapInsert_self]
    · have hne : p.name ≠ q.name := by
        intro e
        exact hqn (e ▸ List.mem_map_of_mem Provider.name hpr)
      have hstep1 : mapLookup (recordOutcome prompt acc q).1 p.name = mapLookup acc.1 p.name := by
        cases hq : q.query prompt with
        | ok ans =>
          simp only [recordOutcome, hq]
          exact mapLookup_mapInsert_other _ _ _ _ hne
        | error e =>
          simp [recordOutcome, hq]
      have hstep2 : mapLookup (recordOutcome prompt acc q).2 p.name = mapLookup acc.2 p.name := by
        cases hq : q.query prompt with
        | ok ans =>
          simp [recordOutcome, hq]
        | error e =>
          simp only [recordOutcome, hq]
          exact mapLookup_mapInsert_other _ _ _ _ hne
      have hmain := ih (recordOutcome prompt acc q) p hpr hndr
      constructor
      · intro a ha
        have h1 := (hmain.1 a ha).1
        have h2 := (hmain.1 a ha).2
        rw [fanOutFrom_cons]
        exact ⟨h1, by rw [h2, hstep2]⟩
      · intro e he
        have h1 := (hmain.2 e he).1
        have h2 := (hmain.2 e he).2
        rw [fanOutFrom_cons]
        exact ⟨h1, by rw [h2, hstep1]⟩

theorem fanOutFrom_results_all_fail (prompt : String) (l : List Provider) :
    ∀ acc, (∀ p ∈ l, (p.query prompt).isOk = false) →
      (fanOutFrom prompt acc l).1 = acc.1 := by
  induction l with
  | nil =>
    intro acc _
    rfl
  | cons q rest ih =>
    intro acc hfail
    rw [fanOutFrom_cons]
    have hq : (q.query prompt).isOk = false := hfail q (List.mem_cons_self q rest)
    cases hqq : q.query prompt with
    | ok ans =>
      rw [hqq] at hq
      simp [Except.isOk, Except.toBool] at hq
    | error e =>
      have : (recordOutcome prompt acc q).1 = acc.1 := by
        simp [recordOutcome, hqq]
      rw [ih _ (fun p hp => hfail p (List.mem_cons_of_mem q hp)), this]

theorem fanOutFrom_length (prompt : String) (l : List Provider) :
    ∀ acc, (l.map Provider.name).Nodup →
      (∀ p ∈ l, p.name ∉ mapKeys acc.1 ∧ p.name ∉ mapKeys acc.2) →
      (fanOutFrom prompt acc l).1.length + (fanOutFrom prompt acc l).2.length =
        acc.1.length + acc.2.length + l.length := by
  induction l with
  | nil =>
    intro acc _ _
    simp [fanOutFrom]
  | cons q rest ih =>
    intro acc hnd hfresh
    simp only [List.map_cons, List.nodup_cons] at hnd
    obtain ⟨hqn, hndr⟩ := hnd
    obtain ⟨hq1, hq2⟩ := hfresh q (List.mem_cons_self q rest)
    have hfresh2 : ∀ p ∈ rest, p.name ∉ mapKeys (recordOutcome prompt acc q).1 ∧
        p.name ∉ mapKeys (recordOutcome prompt acc q).2 := by
      intro p hp
      have hne : p.name ≠ q.name := by
        intro e
        exact hqn (e ▸ List.mem_map_of_mem Provider.name hp)
      obtain ⟨hp1, hp2⟩ := hfresh p (List.mem_cons_of_mem q hp)
      cases hqq : q.query prompt with
      | ok ans =>
        refine ⟨?_, by simpa [recordOutcome, hqq] using hp2⟩
        simp only [recordOutcome, hqq]
        rw [mem_mapKeys_mapInsert]
        push_neg
        exact ⟨hne, hp1⟩
      | error e =>
        refine ⟨by simpa [recordOutcome, hqq] using hp1, ?_⟩
        simp only [recordOutcome, hqq]
        rw [mem_mapKeys_mapInsert]
        push_neg
        exact ⟨hne, hp2⟩
    have hstep : (recordOutcome prompt acc q).1.length + (recordOutcome prompt acc q).2.length =
        acc.1.length + acc.2.length + 1 := by
      cases hqq : q.query prompt with
      | ok ans =>
        simp only [recordOutcome, hqq]
        rw [length_mapInsert_new _ _ _ hq1]
        omega
      | error e =>
        simp only [recordOutcome, hqq]
        rw [length_mapInsert_new _ _ _ hq2]
        omega
    rw [fanOutFrom_cons, ih _ hndr hfresh2, hstep]
    simp only [List.length_cons]
    omega

theorem queryProviders_keys_disjoint (providers : List Provider) (prompt : String)
    (hnd : (providers.map Provider.name).Nodup) (k : String)
    (h1 : k ∈ mapKeys (queryProviders providers prompt).1)
    (h2 : k ∈ mapKeys (queryProviders providers prompt).2) : False := by
  simp only [queryProviders] at h1 h2
  rw [mem_mapKeys_fanOutFrom_results] at h1
  rw [mem_mapKeys_fanOutFrom_errors] at h2
  simp only [mapKeys, List.map_nil, List.not_mem_nil, false_or] at h1 h2
  obtain ⟨p, hp, hpn, hpk⟩ := h1
  obtain ⟨q, hq, hqn, hqk⟩ := h2
  have hpq : p = q :=
    List.inj_on_of_nodup_map hnd hp hq (by rw [hpn, hqn])
  subst hpq
  rw [hpk] at hqk
  cases hqk

theorem summaryPrompt_foldl_data (answers : List (String × String)) :
    ∀ init : String,
      (answers.foldl (fun acc na => acc ++ entryLine na) init).data =
        init.data ++ linesData answers := by
  induction answers with
  | nil =>
    intro init
    simp [linesData]
  | cons na rest ih =>
    intro init
    simp only [List.foldl_cons, linesData]
    rw [ih (init ++ entryLine na), String.data_append]
    simp [List.append_assoc]

theorem summaryPrompt_data (answers : List (String × String)) :
    (summaryPrompt answers).data = summaryHeader.data ++ linesData answers :=
  summaryPrompt_foldl_data answers summaryHeader

theorem summaryPrompt_eq_header_append (answers : List (String × String)) :
    summaryPrompt answers = summaryHeader ++ linesStr answers := by
  have h1 := summaryPrompt_data answers
  have h2 : (summaryHeader ++ linesStr answers).data =
      summaryHeader.data ++ linesData answers := by
    rw [String.data_append]
    rfl
  cases hs : summaryPrompt answers
  cases ht : summaryHeader ++ linesStr answers
  rw [hs] at h1
  rw [ht] at h2
  simp only at h1 h2
  rw [h1, h2]

theorem linesData_mem_split (answers : List (String × String))
    (na : String × String) (h : na ∈ answers) :
    ∃ x y, linesData answers = x ++ (entryLine na).data ++ y := by
  induction answers with
  | nil => exact absurd h (List.not_mem_nil na)
  | cons hd rest ih =>
    rcases List.mem_cons.mp h with rfl | hr
    · exact ⟨[], linesData rest, by simp [linesData]⟩
    · obtain ⟨x, y, hxy⟩ := ih hr
      exact ⟨(entryLine hd).data ++ x, y, by simp [linesData, hxy, List.append_assoc]⟩

theorem summaryPrompt_contains (answers : List (String × String))
    (na : String × String) (h : na ∈ answers) :
    strContains (summaryPrompt answers) (entryLine na) := by
  obtain ⟨x, y, hxy⟩ := linesData_mem_split answers na h
  exact ⟨summaryHeader.data ++ x, y, by
    rw [summaryPrompt_data, hxy]
    simp [List.append_assoc]⟩

theorem loadAPIKeys_foldl_untouched (env : List (String × String))
    (names : List String) :
    ∀ acc k, k ∉ names →
      mapLookup (names.foldl
        (fun acc name => mapInsert acc name (osGetenv env (toUpperStr name ++ "_API_KEY"))) acc) k =
      mapLookup acc k := by
  induction names with
  | nil =>
    intro acc k _
    rfl
  | cons m rest ih =>
    intro acc k hk
    simp only [List.mem_cons, not_or] at hk
    simp only [List.foldl_cons]
    rw [ih _ _ hk.2]
    exact mapLookup_mapInsert_other _ _ _ _ hk.1

theorem loadAPIKeys_foldl_lookup (env : List (String × String))
    (names : List String) :
    ∀ acc n, n ∈ names →
      mapLookup (names.foldl
        (fun acc name => mapInsert acc name (osGetenv env (toUpperStr name ++ "_API_KEY"))) acc) n =
      some (osGetenv env (toUpperStr n ++ "_API_KEY")) := by
  induction names with
  | nil =>
    intro acc n hn
    exact absurd hn (List.not_mem_nil n)
  | cons m rest ih =>
    intro acc n hn
    simp only [List.foldl_cons]
    by_cases hr : n ∈ rest
    · exact ih _ _ hr
    · rcases List.mem_cons.mp hn with rfl | hn2
      · rw [loadAPIKeys_foldl_untouched env rest _ _ hr]
        exact mapLookup_mapInsert_self _ _ _
      · exact absurd hn2 hr

theorem loadAPIKeys_foldl_keys (env : List (String × String))
    (names : List String) :
    ∀ acc k, k ∈ mapKeys (names.foldl
        (fun acc name => mapInsert acc name (osGetenv env (toUpperStr name ++ "_API_KEY"))) acc) ↔
      k ∈ mapKeys acc ∨ k ∈ names := by
  induction names with
  | nil =>
    intro acc k
    simp
  | cons m rest ih =>
    intro acc k
    simp only [List.foldl_cons, List.mem_cons]
    rw [ih]
    rw [mem_mapKeys_mapInsert]
    tauto

/-- C1: for every non-empty list of enabled providers with pairwise-distinct
names, after queryProviders returns, the size of the results mapping plus the
size of the errors mapping equals the number of providers in the input list,
the key sets of the two mappings are disjoint, and every provider name appears
in exactly one of the two mappings. -/
theorem C1_queryProviders_partition (providers : List Provider) (prompt : String)
    (_hne : providers ≠ []) (hnd : (providers.map Provider.name).Nodup) :
    (queryProviders providers prompt).1.length +
        (queryProviders providers prompt).2.length = providers.length ∧
    (∀ k, ¬(k ∈ mapKeys (queryProviders providers prompt).1 ∧
        k ∈ mapKeys (queryProviders providers prompt).2)) ∧
    (∀ k, (k ∈ mapKeys (queryProviders providers prompt).1 ∨
        k ∈ mapKeys (queryProviders providers prompt).2) ↔
        k ∈ providers.map Provider.name) := by
  refine ⟨?_, ?_, ?_⟩
  · have h := fanOutFrom_length prompt providers ([], []) hnd ?_
    · simpa [queryProviders] using h
    · intro p _
      simp [mapKeys]
  · rintro k ⟨h1, h2⟩
    exact queryProviders_keys_disjoint providers prompt hnd k h1 h2
  · intro k
    simp only [queryProviders]
    rw [mem_mapKeys_fanOutFrom_results, mem_mapKeys_fanOutFrom_errors]
    simp only [mapKeys, List.map_nil, List.not_mem_nil, false_or]
    constructor
    · rintro (⟨p, hp, hpn, _⟩ | ⟨p, hp, hpn, _⟩) <;>
        exact hpn ▸ List.mem_map_of_mem Provider.name hp
    · intro hk
      obtain ⟨p, hp, hpn⟩ := List.mem_map.mp hk
      cases hok : (p.query prompt).isOk with
      | true => exact Or.inl ⟨p, hp, hpn, hok⟩
      | false => exact Or.inr ⟨p, hp, hpn, hok⟩

/-- Evaluation of the C1 theorem on a concrete two-provider run: one success
and one failure, sizes summing to two. -/
theorem C1_queryProviders_partition_witness :
    ([provAlpha, provBeta] : List Provider) ≠ [] ∧
    (([provAlpha, provBeta].map Provider.name).Nodup) ∧
    (queryProviders [provAlpha, provBeta] ("q")).1.length +
      (queryProviders [provAlpha, provBeta] ("q")).2.length =
      ([provAlpha, provBeta] : List Provider).length :=
  ⟨List.cons_ne_nil _ _, by decide,
    (C1_queryProviders_partition [provAlpha, provBeta] ("q")
      (List.cons_ne_nil _ _) (by decide)).1⟩

/-- C2: when every fanned-out provider query fails, the orchestrator halts
fatally with the no-answers outcome before summarizer selection and
summarization: the query log holds exactly the fan-out queries, one per
provider, all carrying the original prompt, so no provider is ever queried a
second time with a synthesized prompt. -/
theorem C2_all_fail_halts_before_summarization (providers : List Provider)
    (summarizerName promptStr : String) (hne : providers ≠ [])
    (hfail : ∀ p ∈ providers, (p.query promptStr).isOk = false) :
    (orchestrate providers summarizerName promptStr).1 = RunOutcome.fatalNoAnswers ∧
    (orchestrate providers summarizerName promptStr).2 =
      providers.map (fun p => (p.name, promptStr)) := by
  have hres : (queryProviders providers promptStr).1 = [] :=
    fanOutFrom_results_all_fail promptStr providers ([], []) hfail
  have hlen : ¬(providers.length = 0) := by
    cases providers with
    | nil => exact absurd rfl hne
    | cons a l => simp
  constructor <;> simp [orchestrate, hlen, hres]

/-- Evaluation of the C2 theorem on a concrete run where the only provider
always fails. -/
theorem C2_all_fail_witness :
    ([provBeta] : List Provider) ≠ [] ∧
    (∀ p ∈ ([provBeta] : List Provider), (p.query ("q")).isOk = false) ∧
    (orchestrate [provBeta] ("alpha") ("q")).1 = RunOutcome.fatalNoAnswers :=
  ⟨List.cons_ne_nil _ _, by decide,
    (C2_all_fail_halts_before_summarization [provBeta] ("alpha") ("q")
      (List.cons_ne_nil _ _) (by decide)).1⟩

/-- C9: queryProviders is total on the empty provider list and returns two
empty mappings without error; the orchestrator on an empty enabled set halts
fatally without issuing any query and without producing a verdict, and had
fan-out been entered, its empty results mapping satisfies the zero-successes
guard of the orchestrator. -/
theorem C9_empty_provider_list (prompt summarizerName : String) :
    queryProviders [] prompt = ([], []) ∧
    (queryProviders [] prompt).1.length = 0 ∧
    orchestrate [] summarizerName prompt = (RunOutcome.fatalNoProviders, []) :=
  ⟨rfl, rfl, rfl⟩

/-- C4: during one call to queryProviders each provider in the input list has
its Query invoked exactly once, every invocation carries the original prompt,
and the outcome recorded for a provider is its own query outcome, independent
of the other providers: a success is recorded only in the results mapping, a
failure only in the errors mapping, with no second attempt. -/
theorem C4_query_once_no_retry (providers : List Provider) (prompt : String)
    (hnd : (providers.map Provider.name).Nodup) :
    (∀ p ∈ providers,
      ((fanOutTrace providers prompt).map (fun ev => ev.1)).count p.name = 1) ∧
    (∀ ev ∈ fanOutTrace providers prompt, ev.2.1 = prompt) ∧
    (∀ p ∈ providers, ∀ a, p.query prompt = Except.ok a →
      mapLookup (queryProviders providers prompt).1 p.name = some a ∧
      mapLookup (queryProviders providers prompt).2 p.name = none) ∧
    (∀ p ∈ providers, ∀ e, p.query prompt = Except.error e →
      mapLookup (queryProviders providers prompt).2 p.name = some e ∧
      mapLookup (queryProviders providers prompt).1 p.name = none) := by
  refine ⟨?_, ?_, ?_, ?_⟩
  · intro p hp
    have hmap : (fanOutTrace providers prompt).map (fun ev => ev.1) =
        providers.map Provider.name := by
      simp [fanOutTrace, List.map_map, Function.comp]
    rw [hmap]
    exact List.count_eq_one_of_mem hnd (List.mem_map_of_mem Provider.name hp)
  · intro ev hev
    simp only [fanOutTrace, List.mem_map] at hev
    obtain ⟨p, _, rfl⟩ := hev
    rfl
  · intro p hp a ha
    exact (fanOutFrom_lookup_spec prompt providers ([], []) p hp hnd).1 a ha
  · intro p hp e he
    exact (fanOutFrom_lookup_spec prompt providers ([], []) p hp hnd).2 e he

/-- Evaluation of the C4 theorem on a concrete two-provider run: the success
lands in the results mapping, the failure in the errors mapping. -/
theorem C4_query_once_no_retry_witness :
    (([provAlpha, provBeta].map Provider.name).Nodup) ∧
    mapLookup (queryProviders [provAlpha, provBeta] ("q")).1 provAlpha.name =
      some ("alpha says q") ∧
    mapLookup (queryProviders [provAlpha, provBeta] ("q")).2 provBeta.name =
      some ("timeout") :=
  ⟨by decide,
    ((C4_query_once_no_retry [provAlpha, provBeta] ("q") (by decide)).2.2.1
      provAlpha (List.mem_cons_self _ _) ("alpha says q") rfl).1,
    ((C4_query_once_no_retry [provAlpha, provBeta] ("q") (by decide)).2.2.2
      provBeta (List.mem_cons_of_mem _ (List.mem_cons_self _ _)) ("timeout") rfl).1⟩

/-- C5: the summarizer selector returns a provider whose Name equals the
requested name and whose Enabled flag is true whenever the list holds such a
provider, and nil otherwise; the result is determined by the names and enabled
flags alone, independent of the query behaviour observed during fan-out. -/
theorem C5_findSummarizer_spec (providers : List Provider) (name : String) :
    (∀ p, findSummarizerProvider providers name = some p →
      p ∈ providers ∧ p.name = name ∧ p.enabled = true) ∧
    (findSummarizerProvider providers name = none ↔
      ∀ p ∈ providers, ¬(p.name = name ∧ p.enabled = true)) ∧
    (∀ l2 : List Provider,
      providers.map (fun p => (p.name, p.enabled)) =
        l2.map (fun p => (p.name, p.enabled)) →
      (findSummarizerProvider providers name).map (fun p => (p.name, p.enabled)) =
        (findSummarizerProvider l2 name).map (fun p => (p.name, p.enabled))) := by
  refine ⟨?_, ?_, ?_⟩
  · induction providers with
    | nil =>
      intro p h
      simp [findSummarizerProvider] at h
    | cons q rest ih =>
      intro p h
      by_cases hc : q.name = name ∧ q.enabled = true
      · simp only [findSummarizerProvider, if_pos hc] at h
        cases h
        exact ⟨List.mem_cons_self q rest, hc⟩
      · simp only [findSummarizerProvider, if_neg hc] at h
        obtain ⟨hm, hrest⟩ := ih p h
        exact ⟨List.mem_cons_of_mem q hm, hrest⟩
  · induction providers with
    | nil =>
      simp [findSummarizerProvider]
    | cons q rest ih =>
      by_cases hc : q.name = name ∧ q.enabled = true
      · simp only [findSummarizerProvider, if_pos hc]
        constructor
        · intro h
          exact absurd h (by simp)
        · intro h
          exact absurd hc (h q (List.mem_cons_self q rest))
      · simp only [findSummarizerProvider, if_neg hc]
        rw [ih]
        constructor
        · intro h p hp
          rcases List.mem_cons.mp hp with rfl | hp2
          · exact hc
          · exact h p hp2
        · intro h p hp
          exact h p (List.mem_cons_of_mem q hp)
  · induction providers with
    | nil =>
      intro l2 hmap
      cases l2 with
      | nil => rfl
      | cons q2 r2 => simp at hmap
    | cons q rest ih =>
      intro l2 hmap
      cases l2 with
      | nil => simp at hmap
      | cons q2 r2 =>
        simp only [List.map_cons, List.cons.injEq] at hmap
        obtain ⟨hhd, htl⟩ := hmap
        have hn : q.name = q2.name := congrArg Prod.fst hhd
        have he : q.enabled = q2.enabled := congrArg Prod.snd hhd
        by_cases hc : q.name = name ∧ q.enabled = true
        · have hc2 : q2.name = name ∧ q2.enabled = true := ⟨hn ▸ hc.1, he ▸ hc.2⟩
          simp only [findSummarizerProvider, if_pos hc, if_pos hc2, Option.map_some]
          exact congrArg some hhd
        · have hc2 : ¬(q2.name = name ∧ q2.enabled = true) := by
            rw [← hn, ← he]
            exact hc
          simp only [findSummarizerProvider, if_neg hc, if_neg hc2]
          exact ih r2 htl

/-- Evaluation of the C5 theorem: a requested name that matches only a disabled
provider collapses to the not-found result. -/
theorem C5_findSummarizer_spec_witness :
    findSummarizerProvider [provAlpha, provDelta] ("delta") = none :=
  (C5_findSummarizer_spec [provAlpha, provDelta] ("delta")).2.1.mpr (by decide)

/-- C7: two runs of fan-out over the same providers with the same per-provider
behaviour, differing only in the completion order of the concurrent queries
(any permutation of the provider list), produce identical key sets in the
results mapping and identical key sets in the errors mapping. -/
theorem C7_keysets_order_independent (l1 l2 : List Provider) (prompt : String)
    (hperm : l1.Perm l2) :
    (∀ k, k ∈ mapKeys (queryProviders l1 prompt).1 ↔
        k ∈ mapKeys (queryProviders l2 prompt).1) ∧
    (∀ k, k ∈ mapKeys (queryProviders l1 prompt).2 ↔
        k ∈ mapKeys (queryProviders l2 prompt).2) := by
  constructor
  · intro k
    simp only [queryProviders]
    rw [mem_mapKeys_fanOutFrom_results, mem_mapKeys_fanOutFrom_results]
    simp only [mapKeys, List.map_nil, List.not_mem_nil, false_or]
    constructor
    · rintro ⟨p, hp, h⟩
      exact ⟨p, hperm.mem_iff.mp hp, h⟩
    · rintro ⟨p, hp, h⟩
      exact ⟨p, hperm.mem_iff.mpr hp, h⟩
  · intro k
    simp only [queryProviders]
    rw [mem_mapKeys_fanOutFrom_errors, mem_mapKeys_fanOutFrom_errors]
    simp only [mapKeys, List.map_nil, List.not_mem_nil, false_or]
    constructor
    · rintro ⟨p, hp, h⟩
      exact ⟨p, hperm.mem_iff.mp hp, h⟩
    · rintro ⟨p, hp, h⟩
      exact ⟨p, hperm.mem_iff.mpr hp, h⟩

/-- Evaluation of the C7 theorem on the two completion orders of a concrete
two-provider run. -/
theorem C7_keysets_order_independent_witness :
    ([provAlpha, provBeta] : List Provider).Perm [provBeta, provAlpha] ∧
    (("alpha") ∈ mapKeys (queryProviders [provAlpha, provBeta] ("q")).1 ↔
      ("alpha") ∈ mapKeys (queryProviders [provBeta, provAlpha] ("q")).1) :=
  ⟨List.Perm.swap _ _ _,
    (C7_keysets_order_independent [provAlpha, provBeta] [provBeta, provAlpha] ("q")
      (List.Perm.swap _ _ _)).1 ("alpha")⟩

/-- C3: the synthesized summarizer prompt is built from the results mapping of
fan-out alone: it is the fixed header followed by exactly the rendered entries
of the results mapping, each successful provider name together with its answer
occurs contiguously in the prompt, and no provider recorded in the errors
mapping has an entry, its key being absent from the results mapping. -/
theorem C3_summaryPrompt_from_results (providers : List Provider) (prompt : String)
    (hnd : (providers.map Provider.name).Nodup) :
    ((summaryPrompt (queryProviders providers prompt).1).data =
      summaryHeader.data ++ linesData (queryProviders providers prompt).1) ∧
    (∀ na ∈ (queryProviders providers prompt).1,
      strContains (summaryPrompt (queryProviders providers prompt).1) (entryLine na)) ∧
    (∀ k ∈ mapKeys (queryProviders providers prompt).2,
      k ∉ mapKeys (queryProviders providers prompt).1) := by
  refine ⟨summaryPrompt_data _, ?_, ?_⟩
  · intro na hna
    exact summaryPrompt_contains _ na hna
  · intro k hk hk1
    exact queryProviders_keys_disjoint providers prompt hnd k hk1 hk

/-- Evaluation of the C3 theorem on a concrete run with one success and one
failure: the successful entry occurs in the prompt, the failed provider has no
key in the results mapping. -/
theorem C3_summaryPrompt_from_results_witness :
    (([provAlpha, provBeta].map Provider.name).Nodup) ∧
    strContains (summaryPrompt (queryProviders [provAlpha, provBeta] ("q")).1)
      (entryLine (("alpha"), ("alpha says q"))) ∧
    ("beta") ∉ mapKeys (queryProviders [provAlpha, provBeta] ("q")).1 :=
  ⟨by decide,
    (C3_summaryPrompt_from_results [provAlpha, provBeta] ("q") (by decide)).2.1
      (("alpha"), ("alpha says q")) (by decide),
    (C3_summaryPrompt_from_results [provAlpha, provBeta] ("q") (by decide)).2.2
      ("beta") (by decide)⟩

/-- C8 amended: in a run with a single enabled always-succeeding provider that
is also the selected summarizer, that provider is queried exactly twice, first
with the original user prompt and second with the synthesized prompt; the two
prompts differ whenever the original prompt does not begin with the fixed
summarization header (when the user supplies a prompt of exactly the
synthesized form the two invocations coincide, see the counterexample). -/
theorem C8_single_provider_two_prompts (p : Provider) (promptStr : String)
    (hen : p.enabled = true)
    (hsucc : ∀ s, (p.query s).isOk = true)
    (hnp : ∀ t, promptStr ≠ summaryHeader ++ t) :
    ∃ a1, p.query promptStr = Except.ok a1 ∧
      (orchestrate [p] p.name promptStr).2 =
        [(p.name, promptStr), (p.name, summaryPrompt [(p.name, a1)])] ∧
      summaryPrompt [(p.name, a1)] ≠ promptStr := by
  cases h1 : p.query promptStr with
  | error e =>
    have hs := hsucc promptStr
    rw [h1] at hs
    simp [Except.isOk, Except.toBool] at hs
  | ok a1 =>
    have hres : (queryProviders [p] promptStr).1 = [(p.name, a1)] := by
      simp [queryProviders, fanOutFrom, recordOutcome, h1, mapInsert]
    have hfind : findSummarizerProvider [p] p.name = some p := by
      simp [findSummarizerProvider, hen]
    cases h2 : p.query (summaryPrompt [(p.name, a1)]) with
    | error e =>
      have hs := hsucc (summaryPrompt [(p.name, a1)])
      rw [h2] at hs
      simp [Except.isOk, Except.toBool] at hs
    | ok v =>
      refine ⟨a1, rfl, ?_, ?_⟩
      · simp [orchestrate, hres, hfind, summarizeAnswers, h2]
      · intro heq
        rw [summaryPrompt_eq_header_append] at heq
        exact hnp (linesStr [(p.name, a1)]) heq.symm

/-- Evaluation of the amended C8 theorem on a concrete single-provider run
with an ordinary user prompt. -/
theorem C8_single_provider_two_prompts_witness :
    provAlpha.enabled = true ∧
    (orchestrate [provAlpha] provAlpha.name ("q")).2 =
      [(provAlpha.name, ("q")),
        (provAlpha.name, summaryPrompt [(provAlpha.name, ("alpha says q"))])] ∧
    summaryPrompt [(provAlpha.name, ("alpha says q"))] ≠ ("q") := by
  have hnp : ∀ t, ("q" : String) ≠ summaryHeader ++ t := by
    intro t ht
    have hlen := congrArg String.length ht
    rw [String.length_append] at hlen
    have hq : ("q" : String).length = 1 := rfl
    have hh : 1 < summaryHeader.length := by decide
    omega
  obtain ⟨a1, ha1, hlog, hneq⟩ :=
    C8_single_provider_two_prompts provAlpha ("q") rfl (fun _ => rfl) hnp
  have h2 : (Except.ok ("alpha says q") : Except String String) = Except.ok a1 := ha1
  injection h2 with h3
  subst h3
  exact ⟨rfl, hlog, hneq⟩

/-- C8 counterexample: when the user prompt is exactly the synthesized form,
the two Query invocations of the single summarizing provider receive the same
prompt string, refuting the claim that the synthesized prompt is never equal
to the original prompt. -/
theorem C8_counterexample :
    (orchestrate [provEcho] ("alpha")
        ("Summarize and provide a verdict for these answers:\n[alpha]: x\n")).2 =
      [(("alpha"), ("Summarize and provide a verdict for these answers:\n[alpha]: x\n")),
        (("alpha"), ("Summarize and provide a verdict for these answers:\n[alpha]: x\n"))] := by
  decide

/-- C6 amended: a missing or invalid configuration is fatal before any Query:
a config file load failure, and an env file load failure, each halt the run
with an empty query log. A missing per-provider credential is not fatal:
loadAPIKeys yields the empty string for it and the run proceeds to query
providers, see the counterexample. -/
theorem C6_config_failure_halts_before_queries (promptFlag summarizerFlag : String)
    (e1 e2 : String) (envFileLoad : Except String Unit) (cfg : Config)
    (env : List (String × String)) (hprompt : promptFlag ≠ "") :
    runMain promptFlag summarizerFlag (Except.error e1) envFileLoad env =
      (RunOutcome.fatalConfigLoad, []) ∧
    runMain promptFlag summarizerFlag (Except.ok cfg) (Except.error e2) env =
      (RunOutcome.fatalEnvLoad, []) := by
  constructor <;> simp [runMain, hprompt]

/-- Evaluation of the amended C6 theorem on a concrete failed config load. -/
theorem C6_config_failure_witness :
    ("hi" : String) ≠ "" ∧
    runMain ("hi") ("openai") (Except.error ("no config")) (Except.ok ()) [] =
      (RunOutcome.fatalConfigLoad, []) :=
  ⟨by decide,
    (C6_config_failure_halts_before_queries ("hi") ("openai") ("no config") ("x")
      (Except.ok ()) { enabledProviders := [], debug := false } [] (by decide)).1⟩

/-- C6 counterexample: with provider openai enabled and no OPENAI_API_KEY in
the environment, the run does not halt on the missing credential: the provider
is queried and the run completes with a verdict, refuting the claim that a
missing credential terminates the run before any Query. -/
theorem C6_counterexample :
    osGetenv [] ("OPENAI_API_KEY") = "" ∧
    (runMain ("hi") ("openai")
        (Except.ok { enabledProviders := [(("openai"), true)], debug := false })
        (Except.ok ()) []).2 ≠ [] ∧
    (∃ v, (runMain ("hi") ("openai")
        (Except.ok { enabledProviders := [(("openai"), true)], debug := false })
        (Except.ok ()) []).1 = RunOutcome.done v) := by
  refine ⟨rfl, by decide, ⟨_, rfl⟩⟩

/-- C10: loadAPIKeys never fails: for every environment and list of provider
names it returns a mapping whose key set is exactly the set of names in the
input list, where the value for name n is the value of the environment
variable UPPERCASE(n) ++ "_API_KEY", and the empty string, not an error, when
that variable is unset. -/
theorem C10_loadAPIKeys_total (env : List (String × String)) (names : List String) :
    (∀ k, k ∈ mapKeys (loadAPIKeys env names) ↔ k ∈ names) ∧
    (∀ n ∈ names, mapLookup (loadAPIKeys env names) n =
      some (osGetenv env (toUpperStr n ++ "_API_KEY"))) ∧
    (∀ n ∈ names, mapLookup env (toUpperStr n ++ "_API_KEY") = none →
      mapLookup (loadAPIKeys env names) n = some ("")) := by
  refine ⟨?_, ?_, ?_⟩
  · intro k
    have h := loadAPIKeys_foldl_keys env names [] k
    simpa [loadAPIKeys, mapKeys] using h
  · intro n hn
    exact loadAPIKeys_foldl_lookup env names [] n hn
  · intro n hn hunset
    have h : mapLookup (loadAPIKeys env names) n =
        some (osGetenv env (toUpperStr n ++ "_API_KEY")) :=
      loadAPIKeys_foldl_lookup env names [] n hn
    rw [h]
    simp [osGetenv, mapGetD, hunset]

/-- Evaluation of the C10 theorem: a set credential is read through the
uppercased variable name, and an unset credential yields the empty string. -/
theorem C10_loadAPIKeys_total_witness :
    mapLookup (loadAPIKeys [(("ALPHA_API_KEY"), ("k1"))] [("alpha")]) ("alpha") =
      some ("k1") ∧
    mapLookup (loadAPIKeys [] [("alpha")]) ("alpha") = some ("") :=
  ⟨((C10_loadAPIKeys_total [(("ALPHA_API_KEY"), ("k1"))] [("alpha")]).2.1 ("alpha")
      (by decide)).trans (by decide),
    (C10_loadAPIKeys_total [] [("alpha")]).2.2 ("alpha") (by decide) rfl⟩
